import Mathlib

/-!
# Verification of the yasno-bot core logic

Shallow embedding of the change-detection module (`src/yasno/changes.ts`),
the bulk-dispatch module (`src/telegram/api.ts`), and the update
orchestrator (`src/services/scheduler.ts`) of the yasno-bot repository,
together with proofs of the specified properties.

Conventions of the embedding:
* A JSON `YasnoResponse` object is modelled as an association list from
  zone identifiers to zone data; JavaScript object keys are unique and
  `Object.keys` iterates them in insertion order, which the list order
  mirrors.
* Asynchronous collaborators are modelled by their observable outcomes
  (an `Option` for the fallible fetch, an outcome per send call for the
  Telegram collaborator), and the orchestrator's side effects are
  recorded as an ordered event trace.
-/

/-- `type` field of a slot: `'Definite' | 'NotPlanned'` (outage / power). -/
inductive SlotType where
  | Definite
  | NotPlanned
deriving DecidableEq

/-- One contiguous interval of a day's schedule (`Slot` in `types.ts`):
`start`/`end` in minutes since midnight plus the slot `type`. -/
structure Slot where
  start : Nat
  «end» : Nat
  type : SlotType
deriving DecidableEq

/-- One calendar day of one zone (`DaySchedule` in `types.ts`). -/
structure DaySchedule where
  date : String
  status : String
  slots : List Slot
deriving DecidableEq

/-- One zone's state (`ZoneData` in `types.ts`): today's and tomorrow's
day schedules plus an optional `updatedOn` timestamp. -/
structure ZoneData where
  today : DaySchedule
  tomorrow : DaySchedule
  updatedOn : Option String
deriving DecidableEq

/-- A `YasnoResponse`: mapping from zone identifier to zone data,
modelled as an association list in object-key iteration order. -/
abbrev YasnoResponse := List (String × ZoneData)

/-- Key lookup in a `YasnoResponse` (JavaScript property access
`resp[zone]`, `none` when the key is absent). -/
def lookupZone (resp : YasnoResponse) (zone : String) : Option ZoneData :=
  match resp with
  | [] => none
  | (k, v) :: rest => if k = zone then some v else lookupZone rest zone

/-- `Object.keys` of a `YasnoResponse`. -/
def zoneKeys (resp : YasnoResponse) : List String :=
  resp.map Prod.fst

/-- The positional slot-array comparison loop inside
`compareScheduleData` (`changes.ts`): every positionally paired slot
agrees in `start`, `end` and `type`.  Run after the length check, so the
`zip` traverses both arrays entirely. -/
def slotsMatch (slots1 slots2 : List Slot) : Bool :=
  (slots1.zip slots2).all fun p =>
    decide (p.1.start = p.2.start ∧ p.1.«end» = p.2.«end» ∧ p.1.type = p.2.type)

/-- `compareScheduleData` (`changes.ts`): `true` iff the two day
schedules agree on `status`, slot count, and every slot positionally;
`date` is never inspected. -/
def compareScheduleData (day1 day2 : DaySchedule) : Bool :=
  if day1.status ≠ day2.status then false
  else if day1.slots.length ≠ day2.slots.length then false
  else slotsMatch day1.slots day2.slots

/-- `hasZoneChanged` (`changes.ts`): an absent cached zone counts as
changed; otherwise the zone changed iff today's or tomorrow's schedule
data differs. -/
def hasZoneChanged (freshZone : ZoneData) (cachedZone : Option ZoneData) : Bool :=
  match cachedZone with
  | none => true
  | some cached =>
      let todayChanged := !compareScheduleData freshZone.today cached.today
      let tomorrowChanged := !compareScheduleData freshZone.tomorrow cached.tomorrow
      todayChanged || tomorrowChanged

/-- `detectChangedZones` (`changes.ts`): walk the zones of `freshData`
in iteration order and keep those for which `hasZoneChanged` holds
against the cached entry of the same key. -/
def detectChangedZones (freshData cachedData : YasnoResponse) : List String :=
  (freshData.filter fun kv => hasZoneChanged kv.2 (lookupZone cachedData kv.1)).map
    Prod.fst

/-- `TELEGRAM_RATE_LIMITS.CHUNK_SIZE` (`constants.ts`). -/
def CHUNK_SIZE : Nat := 30

/-- `TELEGRAM_RATE_LIMITS.CHUNK_DELAY_MS` (`constants.ts`). -/
def CHUNK_DELAY_MS : Nat := 1000

/-- Observable outcome of one `sendMessage` call as seen by
`Promise.allSettled`: the promise either fulfilled with a boolean or
rejected (the collaborator threw). -/
inductive SendResult where
  | fulfilled (value : Bool)
  | rejected
deriving DecidableEq

/-- The per-chunk tally loop of `sendBulkMessages` (`telegram/api.ts`):
a result counts as successful iff it fulfilled with `true`, and as
failed otherwise (fulfilled `false` or rejected).  The loop's two
mutable counters are modelled by structural recursion; the pair of
counts is order-independent. -/
def countResults : List SendResult → Nat × Nat
  | [] => (0, 0)
  | result :: rest =>
      let acc := countResults rest
      match result with
      | SendResult.fulfilled true => (acc.1 + 1, acc.2)
      | _ => (acc.1, acc.2 + 1)

/-- Trace of one `sendBulkMessages` run: the returned
`{successful, failed}` counts, the number of inter-chunk pauses (each of
`CHUNK_DELAY_MS` milliseconds) that were awaited, and the chunk
partition in which the `sendMessage` calls were issued. -/
structure BulkTrace (α : Type) where
  successful : Nat
  failed : Nat
  pauses : Nat
  chunks : List (List α)
deriving DecidableEq

/-- The chunk loop of `sendBulkMessages`
(`for i = 0; i < chatIds.length; i += CHUNK_SIZE`), as recursion on the
not-yet-processed suffix `chatIds.drop i`.  Each iteration slices off
`chatIds.slice i (i + CHUNK_SIZE)` (= `take CHUNK_SIZE`), fires all its
sends, tallies the settled results, and pauses iff
`i + CHUNK_SIZE < chatIds.length` (= the remaining suffix is nonempty).
`fuel` bounds the number of iterations for structural recursion; the
wrapper passes `chatIds.length`, which always suffices since every
iteration consumes at least one recipient. -/
def sendBulkAux (send : α → SendResult) : Nat → List α → BulkTrace α
  | _, [] => ⟨0, 0, 0, []⟩
  | 0, _ :: _ => ⟨0, 0, 0, []⟩
  | fuel + 1, chatId :: restIds =>
      let chatIds := chatId :: restIds
      let chunk := chatIds.take CHUNK_SIZE
      let rest := chatIds.drop CHUNK_SIZE
      let counts := countResults (chunk.map send)
      let tail := sendBulkAux send fuel rest
      ⟨counts.1 + tail.successful, counts.2 + tail.failed,
        (if rest.isEmpty then 0 else 1) + tail.pauses, chunk :: tail.chunks⟩

/-- `sendBulkMessages` (`telegram/api.ts`), parameterised by the
outcome of the `sendMessage` collaborator on each chat id.  The
function is total: rejected promises are absorbed by
`Promise.allSettled` and tallied as failures, so no exception
propagates to the caller. -/
def sendBulkMessages (send : α → SendResult) (chatIds : List α) : BulkTrace α :=
  sendBulkAux send chatIds.length chatIds

/-- One observable side effect of a `checkScheduleUpdates` cycle, in
order: a `saveToHistory` insert (raw data, changed zones, notes), the
per-zone notification phase (`notifySubscribersOfChanges`), or an
`updateCache` write. -/
inductive CycleEvent where
  | historySave (rawData : YasnoResponse) (changedZones : List String) (notes : String)
  | notifyZones (zones : List String)
  | cacheWrite (data : YasnoResponse)
deriving DecidableEq

/-- `checkScheduleUpdates` (`services/scheduler.ts`) as the ordered
trace of its side effects.  Inputs model the collaborators:
`freshResult` is what `fetchYasnoDataWithRetry` resolved to (`none` on
fetch failure), `cachedData` is what `getCachedData` returned,
`notifySucceeds` is whether the phase from subscriber lookup through
bulk dispatch (`notifySubscribersOfChanges`) ran without throwing, and
`ts`/`errMsg` are the timestamp and error text interpolated into the
history notes.  The body is wrapped in `try/catch`, so a throw in the
notification phase is caught and recorded; no exception escapes and the
trace is total. -/
def checkScheduleUpdates (freshResult : Option YasnoResponse)
    (cachedData : YasnoResponse) (notifySucceeds : Bool)
    (ts errMsg : String) : List CycleEvent :=
  match freshResult with
  | none =>
      [CycleEvent.historySave [] []
        ("API fetch failed at " ++ ts ++ " (after retry)")]
  | some freshData =>
      let changedZones := detectChangedZones freshData cachedData
      let firstSave := CycleEvent.historySave freshData changedZones
        (if changedZones.length = 0 then "No changes detected"
         else "Changes in zones: " ++ String.intercalate ", " changedZones)
      if changedZones.length = 0 then
        [firstSave]
      else if notifySucceeds then
        [firstSave, CycleEvent.notifyZones changedZones,
          CycleEvent.cacheWrite freshData]
      else
        [firstSave, CycleEvent.historySave [] []
          ("Error in checkScheduleUpdates: " ++ errMsg)]

/-! ## Lemmas about the bulk dispatcher -/

/-- Predicate picking out the send outcomes that the tally loop counts
as successful. -/
def isSuccessResult (r : SendResult) : Bool :=
  decide (r = SendResult.fulfilled true)

theorem countResults_fst (rs : List SendResult) :
    (countResults rs).1 = rs.countP isSuccessResult := by
  induction rs with
  | nil => rfl
  | cons r rest ih =>
      cases r with
      | fulfilled v =>
          cases v <;>
            simp [countResults, List.countP_cons, isSuccessResult, ih]
      | rejected =>
          simp [countResults, List.countP_cons, isSuccessResult, ih]

theorem countResults_sum (rs : List SendResult) :
    (countResults rs).1 + (countResults rs).2 = rs.length := by
  induction rs with
  | nil => rfl
  | cons r rest ih =>
      cases r with
      | fulfilled v => cases v <;> simp [countResults] <;> omega
      | rejected => simp [countResults]; omega

theorem sendBulkAux_cons (send : α → SendResult) (fuel : Nat) (x : α)
    (xs : List α) :
    sendBulkAux send (fuel + 1) (x :: xs) =
      let chunk := (x :: xs).take CHUNK_SIZE
      let rest := (x :: xs).drop CHUNK_SIZE
      let counts := countResults (chunk.map send)
      let tail := sendBulkAux send fuel rest
      ⟨counts.1 + tail.successful, counts.2 + tail.failed,
        (if rest.isEmpty then 0 else 1) + tail.pauses, chunk :: tail.chunks⟩ :=
  rfl

theorem sendBulkAux_nil (send : α → SendResult) (fuel : Nat) :
    sendBulkAux send fuel ([] : List α) = ⟨0, 0, 0, []⟩ := by
  cases fuel <;> rfl

/-- Master invariant of the chunk loop, by induction on the fuel bound:
the chunks partition the input in order, each chunk holds at most
`CHUNK_SIZE` recipients, the pauses number one fewer than the chunks,
the successful count is the number of recipients whose send fulfilled
with `true`, and the two counts sum to the number of recipients. -/
theorem sendBulkAux_spec (send : α → SendResult) :
    ∀ (fuel : Nat) (l : List α), l.length ≤ fuel →
      (sendBulkAux send fuel l).chunks.flatten = l ∧
      (∀ ch ∈ (sendBulkAux send fuel l).chunks, ch.length ≤ CHUNK_SIZE) ∧
      (sendBulkAux send fuel l).pauses =
        (sendBulkAux send fuel l).chunks.length - 1 ∧
      (sendBulkAux send fuel l).successful =
        l.countP (fun c => isSuccessResult (send c)) ∧
      (sendBulkAux send fuel l).successful + (sendBulkAux send fuel l).failed =
        l.length := by
  intro fuel
  induction fuel with
  | zero =>
      intro l hl
      have : l = [] := List.length_eq_zero.mp (Nat.le_zero.mp hl)
      subst this
      simp [sendBulkAux_nil]
  | succ fuel ih =>
      intro l hl
      match l with
      | [] => simp [sendBulkAux_nil]
      | x :: xs =>
          rw [sendBulkAux_cons]
          simp only []
          have hpos : 0 < CHUNK_SIZE := by decide
          have hrest_len : ((x :: xs).drop CHUNK_SIZE).length ≤ fuel := by
            rw [List.length_drop]
            have : (x :: xs).length ≤ fuel + 1 := hl
            have hlen1 : 1 ≤ (x :: xs).length := by simp
            omega
          obtain ⟨hjoin, hsizes, hpause, hsucc, hsum⟩ :=
            ih ((x :: xs).drop CHUNK_SIZE) hrest_len
          have htd := List.take_append_drop CHUNK_SIZE (x :: xs)
          refine ⟨?_, ?_, ?_, ?_, ?_⟩
          · rw [List.flatten_cons, hjoin]
            exact htd
          · intro ch hch
            rcases List.mem_cons.mp hch with hhead | htail
            · subst hhead
              simp [List.length_take]
            · exact hsizes ch htail
          · by_cases hempty : (x :: xs).drop CHUNK_SIZE = []
            · rw [hempty] at hjoin ⊢
              simp [sendBulkAux_nil]
            · have hne : ((x :: xs).drop CHUNK_SIZE).isEmpty = false := by
                simpa [List.isEmpty_iff] using hempty
              have hchunks_ne :
                  (sendBulkAux send fuel ((x :: xs).drop CHUNK_SIZE)).chunks ≠ [] := by
                intro hnil
                rw [hnil] at hjoin
                exact hempty hjoin.symm
              have hlen1 :
                  1 ≤ (sendBulkAux send fuel ((x :: xs).drop CHUNK_SIZE)).chunks.length :=
                Nat.one_le_iff_ne_zero.mpr
                  (fun h0 => hchunks_ne (List.length_eq_zero.mp h0))
              rw [hne]
              simp only [Bool.false_eq_true, if_false, List.length_cons]
              omega
          · rw [countResults_fst, List.countP_map]
            have hsplit :
                (x :: xs).countP (fun c => isSuccessResult (send c)) =
                  ((x :: xs).take CHUNK_SIZE).countP (fun c => isSuccessResult (send c)) +
                  ((x :: xs).drop CHUNK_SIZE).countP (fun c => isSuccessResult (send c)) := by
              conv_lhs => rw [← htd]
              rw [List.countP_append]
            rw [hsplit, hsucc]
            rfl
          · have hcount := countResults_sum (((x :: xs).take CHUNK_SIZE).map send)
            rw [List.length_map] at hcount
            have hlen_split :
                ((x :: xs).take CHUNK_SIZE).length +
                  ((x :: xs).drop CHUNK_SIZE).length = (x :: xs).length := by
              conv_rhs => rw [← htd]
              rw [List.length_append]
            omega

/-! ## Lemmas about change detection -/

/-- The specification's day-equality rule, stated as in the spec (for
the refinement comparison with `compareScheduleData`): equal `status`
(certainty), equal slot count, and positional agreement of every slot
in `start`, `end` and `type`.  The `date` string and any timestamp are
absent from the rule. -/
def dayEqualitySpec (day1 day2 : DaySchedule) : Prop :=
  day1.status = day2.status ∧
  day1.slots.length = day2.slots.length ∧
  ∀ (i : Nat) (h1 : i < day1.slots.length) (h2 : i < day2.slots.length),
    (day1.slots.get ⟨i, h1⟩).start = (day2.slots.get ⟨i, h2⟩).start ∧
    (day1.slots.get ⟨i, h1⟩).«end» = (day2.slots.get ⟨i, h2⟩).«end» ∧
    (day1.slots.get ⟨i, h1⟩).type = (day2.slots.get ⟨i, h2⟩).type

theorem slotsMatch_cons (a b : Slot) (s t : List Slot) :
    slotsMatch (a :: s) (b :: t) =
      (decide (a.start = b.start ∧ a.«end» = b.«end» ∧ a.type = b.type) &&
        slotsMatch s t) :=
  rfl

theorem slotsMatch_iff :
    ∀ (s t : List Slot), s.length = t.length →
      (slotsMatch s t = true ↔
        ∀ (i : Nat) (h1 : i < s.length) (h2 : i < t.length),
          (s.get ⟨i, h1⟩).start = (t.get ⟨i, h2⟩).start ∧
          (s.get ⟨i, h1⟩).«end» = (t.get ⟨i, h2⟩).«end» ∧
          (s.get ⟨i, h1⟩).type = (t.get ⟨i, h2⟩).type)
  | [], [], _ => by
      constructor
      · intro _ i h1 _
        exact absurd h1 (Nat.not_lt_zero i)
      · intro _
        rfl
  | [], b :: t, h => by simp at h
  | a :: s, [], h => by simp at h
  | a :: s, b :: t, h => by
      have hlen : s.length = t.length := by simpa using h
      have ih := slotsMatch_iff s t hlen
      constructor
      · intro hm i h1 h2
        rw [slotsMatch_cons, Bool.and_eq_true] at hm
        match i with
        | 0 => exact of_decide_eq_true hm.1
        | Nat.succ j =>
            have h1' : j < s.length := by simpa using h1
            have h2' : j < t.length := by simpa using h2
            exact ih.mp hm.2 j h1' h2'
      · intro hp
        rw [slotsMatch_cons, Bool.and_eq_true]
        refine ⟨decide_eq_true ?_, ih.mpr ?_⟩
        · exact hp 0 (by simp) (by simp)
        · intro j hj1 hj2
          exact hp (j + 1) (by simpa using Nat.succ_lt_succ hj1)
            (by simpa using Nat.succ_lt_succ hj2)

/-- Refinement: the source's `compareScheduleData` decides exactly the
specification's day-equality rule. -/
theorem compareScheduleData_iff (day1 day2 : DaySchedule) :
    compareScheduleData day1 day2 = true ↔ dayEqualitySpec day1 day2 := by
  unfold compareScheduleData dayEqualitySpec
  by_cases hs : day1.status = day2.status
  · by_cases hl : day1.slots.length = day2.slots.length
    · rw [if_neg (not_not_intro hs), if_neg (not_not_intro hl),
        slotsMatch_iff day1.slots day2.slots hl]
      constructor
      · intro hp
        exact ⟨hs, hl, hp⟩
      · intro hp
        exact hp.2.2
    · rw [if_neg (not_not_intro hs), if_pos hl]
      constructor
      · intro hfalse
        exact absurd hfalse (by decide)
      · intro hp
        exact absurd hp.2.1 hl
  · rw [if_pos hs]
    constructor
    · intro hfalse
      exact absurd hfalse (by decide)
    · intro hp
      exact absurd hp.1 hs

theorem slotsMatch_self : ∀ (l : List Slot), slotsMatch l l = true
  | [] => rfl
  | a :: l => by
      rw [slotsMatch_cons, Bool.and_eq_true]
      exact ⟨decide_eq_true ⟨rfl, rfl, rfl⟩, slotsMatch_self l⟩

theorem compareScheduleData_true_of (day1 day2 : DaySchedule)
    (hs : day1.status = day2.status) (hsl : day1.slots = day2.slots) :
    compareScheduleData day1 day2 = true := by
  unfold compareScheduleData
  rw [if_neg (not_not_intro hs), if_neg (not_not_intro (by rw [hsl])), hsl]
  exact slotsMatch_self day2.slots

/-- Equality of zone data up to the `date` strings and the `updatedOn`
timestamp: the fields the detector compares. -/
def zoneContentEq (z1 z2 : ZoneData) : Prop :=
  z1.today.status = z2.today.status ∧ z1.today.slots = z2.today.slots ∧
  z1.tomorrow.status = z2.tomorrow.status ∧ z1.tomorrow.slots = z2.tomorrow.slots

theorem hasZoneChanged_eq_false (v v' : ZoneData) (h : zoneContentEq v v') :
    hasZoneChanged v (some v') = false := by
  obtain ⟨h1, h2, h3, h4⟩ := h
  simp [hasZoneChanged, compareScheduleData_true_of _ _ h1 h2,
    compareScheduleData_true_of _ _ h3 h4]

theorem hasZoneChanged_iff_spec (v cz : ZoneData) :
    hasZoneChanged v (some cz) = true ↔
      ¬(dayEqualitySpec v.today cz.today ∧ dayEqualitySpec v.tomorrow cz.tomorrow) := by
  have ha := compareScheduleData_iff v.today cz.today
  have hb := compareScheduleData_iff v.tomorrow cz.tomorrow
  cases hA : compareScheduleData v.today cz.today <;>
    cases hB : compareScheduleData v.tomorrow cz.tomorrow <;>
      rw [hA] at ha <;> rw [hB] at hb <;> simp at ha hb <;>
        simp [hasZoneChanged, hA, hB] <;> tauto

theorem mem_detectChangedZones {freshData cachedData : YasnoResponse} {z : String} :
    z ∈ detectChangedZones freshData cachedData ↔
      ∃ v, (z, v) ∈ freshData ∧
        hasZoneChanged v (lookupZone cachedData z) = true := by
  unfold detectChangedZones
  rw [List.mem_map]
  constructor
  · rintro ⟨⟨k, v⟩, hmem, rfl⟩
    rw [List.mem_filter] at hmem
    exact ⟨v, hmem.1, hmem.2⟩
  · rintro ⟨v, hmem, hch⟩
    exact ⟨(z, v), List.mem_filter.mpr ⟨hmem, hch⟩, rfl⟩

theorem mem_iff_lookupZone :
    ∀ (f : YasnoResponse), (zoneKeys f).Nodup → ∀ (z : String) (v : ZoneData),
      ((z, v) ∈ f ↔ lookupZone f z = some v)
  | [], _, z, v => by simp [lookupZone]
  | (k, w) :: rest, hnd, z, v => by
      have hnd' : k ∉ zoneKeys rest ∧ (zoneKeys rest).Nodup := by
        rw [zoneKeys, List.map_cons, List.nodup_cons] at hnd
        exact hnd
      by_cases hk : k = z
      · subst hk
        rw [lookupZone, if_pos rfl]
        constructor
        · intro hmem
          rcases List.mem_cons.mp hmem with heq | htail
          · rw [(Prod.mk.injEq _ _ _ _).mp heq.symm |>.2]
          · exact absurd (List.mem_map_of_mem Prod.fst htail) hnd'.1
        · intro hsome
          rw [Option.some.injEq] at hsome
          rw [← hsome]
          exact List.mem_cons_self _ _
      · rw [lookupZone, if_neg hk, List.mem_cons]
        rw [mem_iff_lookupZone rest hnd'.2 z v]
        constructor
        · rintro (heq | htail)
          · exact absurd ((Prod.mk.injEq _ _ _ _).mp heq).1.symm hk
          · exact htail
        · intro h
          exact Or.inr h

theorem detectChangedZones_eq_nil {S c : YasnoResponse}
    (h : ∀ z v, (z, v) ∈ S → hasZoneChanged v (lookupZone c z) = false) :
    detectChangedZones S c = [] := by
  unfold detectChangedZones
  rw [List.map_eq_nil_iff, List.filter_eq_nil_iff]
  rintro ⟨z, v⟩ hmem
  simp [h z v hmem]

/-! ## Concrete sample data (used by witnesses and counterexamples) -/

/-- A concrete day schedule for the samples: confirmed status with two
slots covering the day. -/
def sampleToday : DaySchedule :=
  ⟨"2025-11-21", "ScheduleApplies",
    [⟨0, 450, SlotType.Definite⟩, ⟨450, 1440, SlotType.NotPlanned⟩]⟩

/-- A concrete pending day schedule with no slots. -/
def sampleTomorrow : DaySchedule := ⟨"2025-11-22", "WaitingForSchedule", []⟩

/-- A concrete zone. -/
def sampleZone : ZoneData := ⟨sampleToday, sampleTomorrow, some "2025-11-21T16:55"⟩

/-- A one-zone snapshot. -/
def sampleSnapshot : YasnoResponse := [("1.1", sampleZone)]

/-- The same zone content as `sampleZone` but with different `date`
strings and a different `updatedOn` timestamp. -/
def sampleZoneMeta : ZoneData :=
  ⟨⟨"2025-11-22", "ScheduleApplies",
      [⟨0, 450, SlotType.Definite⟩, ⟨450, 1440, SlotType.NotPlanned⟩]⟩,
    ⟨"2025-11-23", "WaitingForSchedule", []⟩, some "2025-11-22T07:00"⟩

/-- `sampleSnapshot` with only dates/timestamps changed. -/
def sampleSnapshotMeta : YasnoResponse := [("1.1", sampleZoneMeta)]

/-- `sampleZone` with one slot boundary moved (450 → 480): a real
schedule change. -/
def sampleZoneChanged : ZoneData :=
  ⟨⟨"2025-11-21", "ScheduleApplies",
      [⟨0, 480, SlotType.Definite⟩, ⟨480, 1440, SlotType.NotPlanned⟩]⟩,
    sampleTomorrow, some "2025-11-21T17:20"⟩

/-- `sampleSnapshot` with a real change in zone 1.1. -/
def sampleSnapshotChanged : YasnoResponse := [("1.1", sampleZoneChanged)]

/-! ## The claims -/

/-- Claim C1, as stated, is false on the code: in a cycle where the
fetch succeeds and `detectChangedZones` returns an empty ChangeSet,
`checkScheduleUpdates` returns right after the history save — the trace
contains no `updateCache` write of the fresh snapshot. -/
theorem spec_C1_counterexample :
    checkScheduleUpdates (some sampleSnapshot) sampleSnapshot true
        "2025-11-21T17:00" "err" =
      [CycleEvent.historySave sampleSnapshot [] "No changes detected"] ∧
    CycleEvent.cacheWrite sampleSnapshot ∉
      checkScheduleUpdates (some sampleSnapshot) sampleSnapshot true
        "2025-11-21T17:00" "err" := by
  decide

/-- Claim C1 (amended): in a cycle whose fetch succeeds, the fresh
snapshot is persisted via `updateCache` iff the ChangeSet is nonempty
and the notification phase completes; when `detectChangedZones` returns
an empty ChangeSet the cycle stops after the history save without
touching the cache. -/
theorem spec_C1_amended (freshData cachedData : YasnoResponse)
    (notifySucceeds : Bool) (ts errMsg : String) :
    (detectChangedZones freshData cachedData = [] →
      checkScheduleUpdates (some freshData) cachedData notifySucceeds ts errMsg =
        [CycleEvent.historySave freshData [] "No changes detected"]) ∧
    (CycleEvent.cacheWrite freshData ∈
        checkScheduleUpdates (some freshData) cachedData notifySucceeds ts errMsg ↔
      detectChangedZones freshData cachedData ≠ [] ∧ notifySucceeds = true) := by
  constructor
  · intro h0
    simp [checkScheduleUpdates, h0]
  · by_cases hch : detectChangedZones freshData cachedData = []
    · simp [checkScheduleUpdates, hch]
    · have hlen : ¬(detectChangedZones freshData cachedData).length = 0 := by
        simpa [List.length_eq_zero] using hch
      cases notifySucceeds with
      | false => simp [checkScheduleUpdates, hlen, hch]
      | true => simp [checkScheduleUpdates, hlen, hch]

/-- Witness for the amended claim C1, at a fetch-succeeded cycle with
an empty ChangeSet. -/
theorem spec_C1_witness :
    checkScheduleUpdates (some sampleSnapshot) sampleSnapshot true "t0" "e" =
      [CycleEvent.historySave sampleSnapshot [] "No changes detected"] :=
  (spec_C1_amended sampleSnapshot sampleSnapshot true "t0" "e").1 (by decide)

/-- Claim C2: a zone present in both snapshots is reported changed by
`detectChangedZones` iff its today or its tomorrow day schedule differs
under the specification's day-equality rule (`dayEqualitySpec`: equal
status, equal slot count, positional agreement of `start`/`end`/`type`;
the `date` string and `updatedOn` timestamp do not occur in the rule). -/
theorem spec_C2 (freshData cachedData : YasnoResponse) (z : String)
    (fz cz : ZoneData) (hnd : (zoneKeys freshData).Nodup)
    (hf : lookupZone freshData z = some fz)
    (hc : lookupZone cachedData z = some cz) :
    z ∈ detectChangedZones freshData cachedData ↔
      ¬(dayEqualitySpec fz.today cz.today ∧
        dayEqualitySpec fz.tomorrow cz.tomorrow) := by
  rw [mem_detectChangedZones]
  constructor
  · rintro ⟨v, hmem, hch⟩
    have hv := (mem_iff_lookupZone freshData hnd z v).mp hmem
    rw [hf, Option.some.injEq] at hv
    rw [← hv] at hch
    rw [hc] at hch
    exact (hasZoneChanged_iff_spec fz cz).mp hch
  · intro hne
    refine ⟨fz, (mem_iff_lookupZone freshData hnd z fz).mpr hf, ?_⟩
    rw [hc]
    exact (hasZoneChanged_iff_spec fz cz).mpr hne

/-- Witness for claim C2 at a concrete pair of snapshots with a real
slot change in zone 1.1. -/
theorem spec_C2_witness :
    (zoneKeys sampleSnapshotChanged).Nodup ∧
    ("1.1" ∈ detectChangedZones sampleSnapshotChanged sampleSnapshot ↔
      ¬(dayEqualitySpec sampleZoneChanged.today sampleZone.today ∧
        dayEqualitySpec sampleZoneChanged.tomorrow sampleZone.tomorrow)) :=
  ⟨by decide,
    spec_C2 sampleSnapshotChanged sampleSnapshot "1.1" sampleZoneChanged
      sampleZone (by decide) (by decide) (by decide)⟩

/-- Claim C3: `detectChangedZones S S` is empty, and it stays empty when
the cached argument differs from `S` only in `date` strings and
`updatedOn` timestamps (same keys looked up successfully, content equal
up to those fields). -/
theorem spec_C3 (S S' : YasnoResponse) (hnd : (zoneKeys S).Nodup)
    (hmeta : ∀ z v, (z, v) ∈ S →
      ∃ v', lookupZone S' z = some v' ∧ zoneContentEq v v') :
    detectChangedZones S S = [] ∧ detectChangedZones S S' = [] := by
  constructor
  · refine detectChangedZones_eq_nil ?_
    intro z v hmem
    rw [(mem_iff_lookupZone S hnd z v).mp hmem]
    exact hasZoneChanged_eq_false v v ⟨rfl, rfl, rfl, rfl⟩
  · refine detectChangedZones_eq_nil ?_
    intro z v hmem
    obtain ⟨v', hlook, heq⟩ := hmeta z v hmem
    rw [hlook]
    exact hasZoneChanged_eq_false v v' heq

/-- Witness for claim C3: a concrete snapshot compared against itself
and against a dates/timestamp-only variant. -/
theorem spec_C3_witness :
    (zoneKeys sampleSnapshot).Nodup ∧
    (detectChangedZones sampleSnapshot sampleSnapshot = [] ∧
      detectChangedZones sampleSnapshot sampleSnapshotMeta = []) :=
  ⟨by decide,
    spec_C3 sampleSnapshot sampleSnapshotMeta (by decide) (by
      intro z v hmem
      have h := List.mem_singleton.mp hmem
      rw [Prod.mk.injEq] at h
      obtain ⟨hz, hv⟩ := h
      subst hz
      subst hv
      exact ⟨sampleZoneMeta, by decide, rfl, rfl, rfl, rfl⟩)⟩

/-- Claim C4: for any collaborator behaviour, the two counts returned
by `sendBulkMessages` sum to the number of recipients, and the
successful count is exactly the number of calls that settled fulfilled
with `true` (everything else — fulfilled `false` or rejected — is
tallied as failed).  The trace function is total, so no collaborator
exception propagates out of the dispatcher. -/
theorem spec_C4 {α : Type} (send : α → SendResult) (chatIds : List α) :
    (sendBulkMessages send chatIds).successful +
        (sendBulkMessages send chatIds).failed = chatIds.length ∧
    (sendBulkMessages send chatIds).successful =
      chatIds.countP (fun c => isSuccessResult (send c)) := by
  have h := sendBulkAux_spec send chatIds.length chatIds (Nat.le_refl _)
  exact ⟨h.2.2.2.2, h.2.2.2.1⟩

/-- Claim C5: `sendBulkMessages` partitions the recipients into
consecutive chunks of at most `CHUNK_SIZE = 30`, in order and covering
every recipient exactly once (their concatenation is the input list);
one fixed pause of `CHUNK_DELAY_MS = 1000` ms follows every chunk
except the last, so `k` chunks incur `k - 1` pauses; 65 recipients
yield exactly the chunk sizes 30, 30, 5. -/
theorem spec_C5 {α : Type} (send : α → SendResult) (chatIds : List α) :
    (sendBulkMessages send chatIds).chunks.flatten = chatIds ∧
    (∀ ch ∈ (sendBulkMessages send chatIds).chunks, ch.length ≤ CHUNK_SIZE) ∧
    (sendBulkMessages send chatIds).pauses =
      (sendBulkMessages send chatIds).chunks.length - 1 ∧
    CHUNK_SIZE = 30 ∧ CHUNK_DELAY_MS = 1000 ∧
    (sendBulkMessages (fun _ : Nat => SendResult.fulfilled true)
        (List.range 65)).chunks.map List.length = [30, 30, 5] := by
  have h := sendBulkAux_spec send chatIds.length chatIds (Nat.le_refl _)
  exact ⟨h.1, h.2.1, h.2.2.1, rfl, rfl, by decide⟩

/-- Witness for claim C5 at a concrete one-recipient run. -/
theorem spec_C5_witness :
    [(7 : Nat)] ∈ (sendBulkMessages (fun _ : Nat => SendResult.rejected) [7]).chunks ∧
    [(7 : Nat)].length ≤ CHUNK_SIZE :=
  ⟨by decide,
    (spec_C5 (fun _ : Nat => SendResult.rejected) [7]).2.1 [7] (by decide)⟩

/-- Claim C6: a zone present in the fresh snapshot but absent from the
cached one is always reported; with an empty cached mapping the
ChangeSet is the whole fresh key list. -/
theorem spec_C6 (freshData cachedData : YasnoResponse) (z : String)
    (v : ZoneData) (hmem : (z, v) ∈ freshData)
    (habs : lookupZone cachedData z = none) :
    z ∈ detectChangedZones freshData cachedData ∧
    detectChangedZones freshData [] = zoneKeys freshData := by
  constructor
  · rw [mem_detectChangedZones]
    refine ⟨v, hmem, ?_⟩
    rw [habs]
    rfl
  · unfold detectChangedZones zoneKeys
    congr 1
    apply List.filter_eq_self.mpr
    intro kv _
    show hasZoneChanged kv.2 (lookupZone [] kv.1) = true
    rfl

/-- Witness for claim C6: zone 1.1 of a concrete snapshot against the
empty cache. -/
theorem spec_C6_witness :
    ("1.1", sampleZone) ∈ sampleSnapshot ∧
    ("1.1" ∈ detectChangedZones sampleSnapshot [] ∧
      detectChangedZones sampleSnapshot [] = zoneKeys sampleSnapshot) :=
  ⟨by decide, spec_C6 sampleSnapshot [] "1.1" sampleZone (by decide) rfl⟩

/-- Claim C7: the ChangeSet is a sublist of the fresh snapshot's key
list — so it contains only fresh zones, in the fresh iteration order —
and a zone absent from the fresh keys (in particular one present only
in the cached snapshot) never appears. -/
theorem spec_C7 (freshData cachedData : YasnoResponse) (z : String) :
    (detectChangedZones freshData cachedData).Sublist (zoneKeys freshData) ∧
    (z ∉ zoneKeys freshData → z ∉ detectChangedZones freshData cachedData) := by
  have hsub :
      (detectChangedZones freshData cachedData).Sublist (zoneKeys freshData) := by
    unfold detectChangedZones zoneKeys
    exact (List.filter_sublist freshData).map Prod.fst
  refine ⟨hsub, ?_⟩
  intro hz hmem
  exact hz (hsub.subset hmem)

/-- Witness for claim C7: the zone 9.9, present only in the cached
snapshot, is not reported. -/
theorem spec_C7_witness :
    "9.9" ∉ zoneKeys sampleSnapshot ∧
    "9.9" ∉ detectChangedZones sampleSnapshot [("9.9", sampleZone)] :=
  ⟨by decide,
    (spec_C7 sampleSnapshot [("9.9", sampleZone)] "9.9").2 (by decide)⟩

/-- Claim C8: when the fetch collaborator yields no snapshot,
`checkScheduleUpdates` produces exactly one event — the audit record of
the failure — so the cache is untouched and nothing is sent; the trace
function is total, so the failure does not escape as an exception. -/
theorem spec_C8 (cachedData : YasnoResponse) (notifySucceeds : Bool)
    (ts errMsg : String) :
    checkScheduleUpdates none cachedData notifySucceeds ts errMsg =
      [CycleEvent.historySave [] []
        ("API fetch failed at " ++ ts ++ " (after retry)")] :=
  rfl

/-- Claim C9: on an empty recipient list `sendBulkMessages` returns
zero counts, issues no chunk (hence no `sendMessage` call), and awaits
no pause. -/
theorem spec_C9 {α : Type} (send : α → SendResult) :
    sendBulkMessages send ([] : List α) = ⟨0, 0, 0, []⟩ :=
  rfl

/-- Claim C10: in a cycle with a nonempty ChangeSet, the cache write is
the last event, strictly after the notification phase; if that phase
throws, the exception is caught, the only further event is the error
audit record, and no cache write occurs — so the cached baseline is
unchanged and (by purity of `detectChangedZones`) the same zones are
detected again next cycle. -/
theorem spec_C10 (freshData cachedData : YasnoResponse) (ts errMsg : String)
    (hch : detectChangedZones freshData cachedData ≠ []) :
    checkScheduleUpdates (some freshData) cachedData true ts errMsg =
      [CycleEvent.historySave freshData (detectChangedZones freshData cachedData)
        ("Changes in zones: " ++
          String.intercalate ", " (detectChangedZones freshData cachedData)),
        CycleEvent.notifyZones (detectChangedZones freshData cachedData),
        CycleEvent.cacheWrite freshData] ∧
    checkScheduleUpdates (some freshData) cachedData false ts errMsg =
      [CycleEvent.historySave freshData (detectChangedZones freshData cachedData)
        ("Changes in zones: " ++
          String.intercalate ", " (detectChangedZones freshData cachedData)),
        CycleEvent.historySave [] []
          ("Error in checkScheduleUpdates: " ++ errMsg)] ∧
    CycleEvent.cacheWrite freshData ∉
      checkScheduleUpdates (some freshData) cachedData false ts errMsg := by
  have hlen : ¬(detectChangedZones freshData cachedData).length = 0 := by
    simpa [List.length_eq_zero] using hch
  refine ⟨?_, ?_, ?_⟩ <;> simp [checkScheduleUpdates, hlen]

/-- Witness for claim C10 at a concrete changed cycle whose
notification phase throws. -/
theorem spec_C10_witness :
    detectChangedZones sampleSnapshotChanged sampleSnapshot ≠ [] ∧
    CycleEvent.cacheWrite sampleSnapshotChanged ∉
      checkScheduleUpdates (some sampleSnapshotChanged) sampleSnapshot false
        "t0" "boom" :=
  ⟨by decide,
    (spec_C10 sampleSnapshotChanged sampleSnapshot "t0" "boom" (by decide)).2.2⟩
